import Mathlib

/-
Verification of the windowed technical-indicator kernels of zipline and of
the pandas time-mask utility.

The repository fragment contains the kernels' test suite
(tests/pipeline/test_technical.py) and zipline/utils/pandas_utils.py.
The indicator kernels themselves (zipline/pipeline/factors/technical.py)
are not part of the fragment, so they are modelled from the specification,
with the concrete expectations of the test suite pinning the values.
mask_between_time and its helpers are translated directly from
zipline/utils/pandas_utils.py.

Prices are modelled as rationals; a possibly-missing cell is an Option.
A window column is a list ordered oldest first, newest last, matching the
row order of the 2-D input arrays.
-/

/-- Minimum value of a list of rationals (0 for the empty list, which no
kernel ever consults). -/
def listMin : List ℚ → ℚ
  | [] => 0
  | [x] => x
  | x :: y :: rest => min x (listMin (y :: rest))

/-- Maximum value of a list of rationals (0 for the empty list). -/
def listMax : List ℚ → ℚ
  | [] => 0
  | [x] => x
  | x :: y :: rest => max x (listMax (y :: rest))

/-- Modelled from the spec: the 0-based row index (oldest row = 0) of the
window minimum, ties resolving to the most recent (largest index)
occurrence.  The Aroon kernel itself is missing from the fragment; the
spec fixes the tie direction. -/
def argLastMin : List ℚ → ℕ
  | [] => 0
  | [_] => 0
  | x :: y :: rest =>
    if listMin (y :: rest) ≤ x then argLastMin (y :: rest) + 1 else 0

/-- Modelled from the spec: the 0-based row index (oldest row = 0) of the
window maximum, ties resolving to the most recent occurrence. -/
def argLastMax : List ℚ → ℕ
  | [] => 0
  | [_] => 0
  | x :: y :: rest =>
    if x ≤ listMax (y :: rest) then argLastMax (y :: rest) + 1 else 0

theorem argLastMin_lt_length (xs : List ℚ) (h : xs ≠ []) :
    argLastMin xs < xs.length := by
  induction xs with
  | nil => exact absurd rfl h
  | cons x rest ih =>
    cases rest with
    | nil => simp [argLastMin]
    | cons y t =>
      have hr := ih (by simp)
      simp only [List.length_cons] at hr ⊢
      by_cases hc : listMin (y :: t) ≤ x
      · simp only [argLastMin, if_pos hc]
        omega
      · simp only [argLastMin, if_neg hc]
        omega

theorem getD_argLastMin (xs : List ℚ) (h : xs ≠ []) :
    xs.getD (argLastMin xs) 0 = listMin xs := by
  induction xs with
  | nil => exact absurd rfl h
  | cons x rest ih =>
    cases rest with
    | nil => simp [argLastMin, listMin]
    | cons y t =>
      have hr := ih (by simp)
      by_cases hc : listMin (y :: t) ≤ x
      · simp only [argLastMin, if_pos hc, listMin, List.getD_cons_succ]
        rw [hr]
        exact (min_eq_right hc).symm
      · simp only [argLastMin, if_neg hc, listMin, List.getD_cons_zero]
        push_neg at hc
        exact (min_eq_left hc.le).symm

theorem listMin_le (xs : List ℚ) (j : ℕ) (hj : j < xs.length) :
    listMin xs ≤ xs.getD j 0 := by
  induction xs generalizing j with
  | nil => simp at hj
  | cons x rest ih =>
    cases rest with
    | nil =>
      cases j with
      | zero => simp [listMin]
      | succ j => simp at hj
    | cons y t =>
      cases j with
      | zero => simp [listMin]
      | succ j =>
        have hj' : j < (y :: t).length := by
          simpa using hj
        calc listMin (x :: y :: t) ≤ listMin (y :: t) := by
              simp [listMin]
          _ ≤ (y :: t).getD j 0 := ih j hj'

theorem lt_of_argLastMin_lt (xs : List ℚ) (j : ℕ) (hj : j < xs.length)
    (hgt : argLastMin xs < j) : listMin xs < xs.getD j 0 := by
  induction xs generalizing j with
  | nil => simp at hj
  | cons x rest ih =>
    cases rest with
    | nil =>
      simp only [argLastMin] at hgt
      simp only [List.length_cons, List.length_nil] at hj
      omega
    | cons y t =>
      by_cases hc : listMin (y :: t) ≤ x
      · simp only [argLastMin, if_pos hc] at hgt
        cases j with
        | zero => omega
        | succ j =>
          have hj' : j < (y :: t).length := by simpa using hj
          have := ih j hj' (by omega)
          simp only [listMin, List.getD_cons_succ]
          exact lt_of_le_of_lt (min_le_right _ _) this
      · simp only [argLastMin, if_neg hc] at hgt
        push_neg at hc
        cases j with
        | zero => omega
        | succ j =>
          have hj' : j < (y :: t).length := by simpa using hj
          have hle := listMin_le (y :: t) j hj'
          simp only [listMin, List.getD_cons_succ]
          calc min x (listMin (y :: t)) = x := min_eq_left hc.le
            _ < listMin (y :: t) := hc
            _ ≤ (y :: t).getD j 0 := hle

theorem argLastMax_lt_length (xs : List ℚ) (h : xs ≠ []) :
    argLastMax xs < xs.length := by
  induction xs with
  | nil => exact absurd rfl h
  | cons x rest ih =>
    cases rest with
    | nil => simp [argLastMax]
    | cons y t =>
      have hr := ih (by simp)
      simp only [List.length_cons] at hr ⊢
      by_cases hc : x ≤ listMax (y :: t)
      · simp only [argLastMax, if_pos hc]
        omega
      · simp only [argLastMax, if_neg hc]
        omega

theorem getD_argLastMax (xs : List ℚ) (h : xs ≠ []) :
    xs.getD (argLastMax xs) 0 = listMax xs := by
  induction xs with
  | nil => exact absurd rfl h
  | cons x rest ih =>
    cases rest with
    | nil => simp [argLastMax, listMax]
    | cons y t =>
      have hr := ih (by simp)
      by_cases hc : x ≤ listMax (y :: t)
      · simp only [argLastMax, if_pos hc, listMax, List.getD_cons_succ]
        rw [hr]
        exact (max_eq_right hc).symm
      · simp only [argLastMax, if_neg hc, listMax, List.getD_cons_zero]
        push_neg at hc
        exact (max_eq_left hc.le).symm

theorem le_listMax (xs : List ℚ) (j : ℕ) (hj : j < xs.length) :
    xs.getD j 0 ≤ listMax xs := by
  induction xs generalizing j with
  | nil => simp at hj
  | cons x rest ih =>
    cases rest with
    | nil =>
      cases j with
      | zero => simp [listMax]
      | succ j => simp at hj
    | cons y t =>
      cases j with
      | zero => simp [listMax]
      | succ j =>
        have hj' : j < (y :: t).length := by simpa using hj
        calc (y :: t).getD j 0 ≤ listMax (y :: t) := ih j hj'
          _ ≤ listMax (x :: y :: t) := by simp [listMax]

theorem lt_of_argLastMax_lt (xs : List ℚ) (j : ℕ) (hj : j < xs.length)
    (hgt : argLastMax xs < j) : xs.getD j 0 < listMax xs := by
  induction xs generalizing j with
  | nil => simp at hj
  | cons x rest ih =>
    cases rest with
    | nil =>
      simp only [argLastMax] at hgt
      simp only [List.length_cons, List.length_nil] at hj
      omega
    | cons y t =>
      by_cases hc : x ≤ listMax (y :: t)
      · simp only [argLastMax, if_pos hc] at hgt
        cases j with
        | zero => omega
        | succ j =>
          have hj' : j < (y :: t).length := by simpa using hj
          have := ih j hj' (by omega)
          simp only [listMax, List.getD_cons_succ]
          exact lt_of_lt_of_le this (le_max_right _ _)
      · simp only [argLastMax, if_neg hc] at hgt
        push_neg at hc
        cases j with
        | zero => omega
        | succ j =>
          have hj' : j < (y :: t).length := by simpa using hj
          have hle := le_listMax (y :: t) j hj'
          simp only [listMax, List.getD_cons_succ]
          calc (y :: t).getD j 0 ≤ listMax (y :: t) := hle
            _ < x := hc
            _ = max x (listMax (y :: t)) := (max_eq_left hc.le).symm

/-- Modelled from the spec: the Aroon kernel (missing from the fragment)
writes, per asset, down = 100 * i_min / (window_length - 1), where i_min
is the 0-based (oldest row = 0) index of the window minimum of the lows,
ties to the most recent occurrence.  The direction of the formula is
pinned by the expectations of AroonTestCase.test_aroon_basic. -/
def aroonDown (lows : List ℚ) : ℚ :=
  100 * (argLastMin lows : ℚ) / ((lows.length - 1 : ℕ) : ℚ)

/-- Modelled from the spec: Aroon up = 100 * i_max / (window_length - 1),
with i_max the 0-based index of the window maximum of the highs, ties to
the most recent occurrence; direction pinned by the tests. -/
def aroonUp (highs : List ℚ) : ℚ :=
  100 * (argLastMax highs : ℚ) / ((highs.length - 1 : ℕ) : ℚ)

/-- The index i is the position of the minimum of xs, with ties among
equal minima resolved to the most recent (largest) index. -/
def IsLatestMinIdx (xs : List ℚ) (i : ℕ) : Prop :=
  i < xs.length ∧ (∀ j, j < xs.length → xs.getD i 0 ≤ xs.getD j 0)
    ∧ (∀ j, j < xs.length → i < j → xs.getD i 0 < xs.getD j 0)

/-- The index i is the position of the maximum of xs, with ties among
equal maxima resolved to the most recent (largest) index. -/
def IsLatestMaxIdx (xs : List ℚ) (i : ℕ) : Prop :=
  i < xs.length ∧ (∀ j, j < xs.length → xs.getD j 0 ≤ xs.getD i 0)
    ∧ (∀ j, j < xs.length → i < j → xs.getD j 0 < xs.getD i 0)

/-- C1 counterexample: on the strictly increasing lows window [0..9] of
AroonTestCase.test_aroon_basic the kernel writes down = 0 (the test
expected value), while the formula of the claim,
100 * (W - 1 - i_min) / (W - 1) with i_min the 0-based oldest-first index
of the window minimum, gives 100. -/
theorem aroon_claim_formula_fails :
    aroonDown [(0:ℚ), 1, 2, 3, 4, 5, 6, 7, 8, 9] ≠
      100 * ((10 - 1 - argLastMin [(0:ℚ), 1, 2, 3, 4, 5, 6, 7, 8, 9] : ℕ) : ℚ)
        / ((10 - 1 : ℕ) : ℚ) := by
  norm_num [aroonDown, argLastMin, listMin]

/-- C1 (amended): for every window of length W >= 2, Aroon writes
down = 100 * i_min / (W - 1) and up = 100 * i_max / (W - 1), where i_min
(resp. i_max) is the 0-based row index, oldest row = 0, of the window
minimum of the lows (resp. maximum of the highs), ties resolving to the
most recent (largest index) occurrence. -/
theorem aroon_compute_spec (W : ℕ) (hW : 2 ≤ W) (lows highs : List ℚ)
    (hl : lows.length = W) (hh : highs.length = W) :
    (aroonDown lows = 100 * (argLastMin lows : ℚ) / ((W - 1 : ℕ) : ℚ)
      ∧ IsLatestMinIdx lows (argLastMin lows))
    ∧ (aroonUp highs = 100 * (argLastMax highs : ℚ) / ((W - 1 : ℕ) : ℚ)
      ∧ IsLatestMaxIdx highs (argLastMax highs)) := by
  have hlne : lows ≠ [] := by
    intro h
    rw [h] at hl
    simp at hl
    omega
  have hhne : highs ≠ [] := by
    intro h
    rw [h] at hh
    simp at hh
    omega
  refine ⟨⟨by rw [aroonDown, hl], ?_, ?_, ?_⟩, ⟨by rw [aroonUp, hh], ?_, ?_, ?_⟩⟩
  · exact argLastMin_lt_length lows hlne
  · intro j hj
    rw [getD_argLastMin lows hlne]
    exact listMin_le lows j hj
  · intro j hj hgt
    rw [getD_argLastMin lows hlne]
    exact lt_of_argLastMin_lt lows j hj hgt
  · exact argLastMax_lt_length highs hhne
  · intro j hj
    rw [getD_argLastMax highs hhne]
    exact le_listMax highs j hj
  · intro j hj hgt
    rw [getD_argLastMax highs hhne]
    exact lt_of_argLastMax_lt highs j hj hgt

/-- Witness for the amended C1 theorem at W = 2, lows = [1, 1] (a tie, so
i_min is the later index 1), highs = [2, 3]. -/
theorem aroon_compute_spec_witness :
    (2 ≤ 2 ∧ ([(1:ℚ), 1]).length = 2 ∧ ([(2:ℚ), 3]).length = 2)
    ∧ ((aroonDown [(1:ℚ), 1]
          = 100 * (argLastMin [(1:ℚ), 1] : ℚ) / ((2 - 1 : ℕ) : ℚ)
        ∧ IsLatestMinIdx [(1:ℚ), 1] (argLastMin [(1:ℚ), 1]))
      ∧ (aroonUp [(2:ℚ), 3]
          = 100 * (argLastMax [(2:ℚ), 3] : ℚ) / ((2 - 1 : ℕ) : ℚ)
        ∧ IsLatestMaxIdx [(2:ℚ), 3] (argLastMax [(2:ℚ), 3]))) :=
  ⟨⟨le_refl 2, rfl, rfl⟩,
    aroon_compute_spec 2 (le_refl 2) [(1:ℚ), 1] [(2:ℚ), 3] rfl rfl⟩

/-- C8: the strictly increasing windows lows = [0..9], highs = [1..10]
yield down = 0 and up = 100, and the reversed windows lows = [10..1],
highs = [9..0] yield down = 100 and up = 0, matching
AroonTestCase.test_aroon_basic. -/
theorem aroon_test_values :
    aroonDown [(0:ℚ), 1, 2, 3, 4, 5, 6, 7, 8, 9] = 0
    ∧ aroonUp [(1:ℚ), 2, 3, 4, 5, 6, 7, 8, 9, 10] = 100
    ∧ aroonDown [(10:ℚ), 9, 8, 7, 6, 5, 4, 3, 2, 1] = 100
    ∧ aroonUp [(9:ℚ), 8, 7, 6, 5, 4, 3, 2, 1, 0] = 0 := by
  refine ⟨?_, ?_, ?_, ?_⟩ <;>
    norm_num [aroonDown, aroonUp, argLastMin, argLastMax, listMin, listMax]

/-- Arithmetic mean of a list of rationals (sum / length; 0 on []). -/
def listMean (xs : List ℚ) : ℚ := xs.sum / xs.length

/-- Population variance in the computational mean-of-squares form:
E[x^2] - (E[x])^2. -/
def popVar (xs : List ℚ) : ℚ :=
  (xs.map (fun x => x ^ 2)).sum / xs.length - listMean xs ^ 2

/-- Population variance as the spec words it: the mean squared deviation
from the mean. -/
def popVarSpec (xs : List ℚ) : ℚ :=
  (xs.map (fun x => (x - listMean xs) ^ 2)).sum / xs.length

/-- Population standard deviation, as a real number. -/
noncomputable def popStd (xs : List ℚ) : ℝ := Real.sqrt ((popVar xs : ℚ) : ℝ)

/-- Modelled from the spec: the BollingerBands kernel (missing from the
fragment) writes middle = mean of the close window. -/
def bbMiddle (closes : List ℚ) : ℚ := closes.sum / closes.length

/-- Modelled from the spec: upper Bollinger band = middle + k * std. -/
noncomputable def bbUpper (k : ℚ) (closes : List ℚ) : ℝ :=
  (bbMiddle closes : ℝ) + (k : ℝ) * popStd closes

/-- Modelled from the spec: lower Bollinger band = middle - k * std. -/
noncomputable def bbLower (k : ℚ) (closes : List ℚ) : ℝ :=
  (bbMiddle closes : ℝ) - (k : ℝ) * popStd closes

theorem sum_map_sub_sq (c : ℚ) (xs : List ℚ) :
    (xs.map (fun x => (x - c) ^ 2)).sum
      = (xs.map (fun x => x ^ 2)).sum - 2 * c * xs.sum
        + (xs.length : ℚ) * c ^ 2 := by
  induction xs with
  | nil => simp
  | cons x t ih =>
    simp only [List.map_cons, List.sum_cons, List.length_cons, ih]
    push_cast
    ring

theorem popVar_eq_popVarSpec (xs : List ℚ) (h : xs ≠ []) :
    popVar xs = popVarSpec xs := by
  have hn : (xs.length : ℚ) ≠ 0 := by
    have := List.length_pos.mpr h
    positivity
  rw [popVar, popVarSpec, sum_map_sub_sq, listMean]
  field_simp
  ring

/-- C2: for every k and every close window with no missing values,
BollingerBands writes middle = arithmetic mean of the closes, upper =
middle + k * std and lower = middle - k * std, and
upper - middle = middle - lower = k * population standard deviation,
the standard deviation being the square root of the mean squared
deviation from the mean. -/
theorem bollinger_bands_spec (k : ℚ) (closes : List ℚ) (h : closes ≠ []) :
    bbMiddle closes = listMean closes
    ∧ bbUpper k closes = (bbMiddle closes : ℝ) + (k : ℝ) * popStd closes
    ∧ bbLower k closes = (bbMiddle closes : ℝ) - (k : ℝ) * popStd closes
    ∧ bbUpper k closes - (bbMiddle closes : ℝ)
        = (k : ℝ) * Real.sqrt ((popVarSpec closes : ℚ) : ℝ)
    ∧ (bbMiddle closes : ℝ) - bbLower k closes
        = (k : ℝ) * Real.sqrt ((popVarSpec closes : ℚ) : ℝ) := by
  have hv := popVar_eq_popVarSpec closes h
  refine ⟨rfl, rfl, rfl, ?_, ?_⟩ <;>
    · simp only [bbUpper, bbLower, popStd, hv]
      ring

/-- Witness for the C2 theorem at k = 2, closes = [1, 3]. -/
theorem bollinger_bands_spec_witness :
    ([(1:ℚ), 3] ≠ [])
    ∧ (bbMiddle [(1:ℚ), 3] = listMean [(1:ℚ), 3]
      ∧ bbUpper 2 [(1:ℚ), 3]
          = (bbMiddle [(1:ℚ), 3] : ℝ) + ((2 : ℚ) : ℝ) * popStd [(1:ℚ), 3]
      ∧ bbLower 2 [(1:ℚ), 3]
          = (bbMiddle [(1:ℚ), 3] : ℝ) - ((2 : ℚ) : ℝ) * popStd [(1:ℚ), 3]
      ∧ bbUpper 2 [(1:ℚ), 3] - (bbMiddle [(1:ℚ), 3] : ℝ)
          = ((2 : ℚ) : ℝ) * Real.sqrt ((popVarSpec [(1:ℚ), 3] : ℚ) : ℝ)
      ∧ (bbMiddle [(1:ℚ), 3] : ℝ) - bbLower 2 [(1:ℚ), 3]
          = ((2 : ℚ) : ℝ) * Real.sqrt ((popVarSpec [(1:ℚ), 3] : ℚ) : ℝ)) :=
  ⟨by simp, bollinger_bands_spec 2 [(1:ℚ), 3] (by simp)⟩

/-- Modelled from the spec: the masked-asset guard (the engine machinery
around the kernels is missing from the fragment).  An all-missing input
column produces a missing output for that asset; otherwise the kernel f
runs on the values present. -/
def maskedCol {α : Type} (f : List ℚ → α) (col : List (Option ℚ)) :
    Option α :=
  if col.all Option.isNone then none else some (f (col.filterMap id))

/-- Modelled from the spec: the cross-section applies the per-asset
kernel column by column. -/
def maskedCross {α : Type} (f : List ℚ → α)
    (cols : List (List (Option ℚ))) : List (Option α) :=
  cols.map (maskedCol f)

theorem map_eraseIdx {α β : Type} (f : α → β) (l : List α) (i : ℕ) :
    (l.eraseIdx i).map f = (l.map f).eraseIdx i := by
  induction l generalizing i with
  | nil => simp
  | cons x t ih =>
    cases i with
    | zero => simp [List.eraseIdx]
    | succ i => simp [List.eraseIdx, ih]

theorem maskedCross_getD_none {α : Type} (f : List ℚ → α)
    (cols : List (List (Option ℚ))) (j : ℕ) (hj : j < cols.length)
    (hmiss : (cols.getD j []).all Option.isNone = true) :
    (maskedCross f cols).getD j none = none := by
  have hg : cols.getD j [] = cols[j] := List.getD_eq_getElem cols [] hj
  have hmiss2 : cols[j].all Option.isNone = true := by
    rw [← hg]
    exact hmiss
  rw [List.getD_eq_getElem?_getD, maskedCross, List.getElem?_map,
    List.getElem?_eq_getElem hj]
  simp [maskedCol, hmiss2]

/-- C6: when one asset's input column is entirely missing, the
cross-section computation (for an arbitrary per-asset kernel f, hence for
every indicator) produces a missing output for exactly that asset, keeps
the cross-section shape, and the remaining assets' outputs are what they
would be with the masked asset removed; in particular the BollingerBands
triple (lower, middle, upper) is missing for the masked asset. -/
theorem masked_asset_spec {α : Type} (f : List ℚ → α) (k : ℚ)
    (cols : List (List (Option ℚ))) (j : ℕ) (hj : j < cols.length)
    (hmiss : (cols.getD j []).all Option.isNone = true) :
    (maskedCross f cols).getD j none = none
    ∧ (maskedCross f cols).length = cols.length
    ∧ maskedCross f (cols.eraseIdx j) = (maskedCross f cols).eraseIdx j
    ∧ (maskedCross
        (fun vals => (bbLower k vals, (bbMiddle vals : ℝ), bbUpper k vals))
        cols).getD j none = none := by
  refine ⟨maskedCross_getD_none f cols j hj hmiss, ?_, ?_, ?_⟩
  · simp [maskedCross]
  · exact map_eraseIdx (maskedCol f) cols j
  · exact maskedCross_getD_none _ cols j hj hmiss

/-- Witness for the C6 theorem with kernel f = listMean, k = 2, a
two-asset cross-section whose second column is all-missing, j = 1. -/
theorem masked_asset_spec_witness :
    (1 < ([[some (1:ℚ)], [none]] : List (List (Option ℚ))).length
      ∧ (([[some (1:ℚ)], [none]] : List (List (Option ℚ))).getD 1 []).all
          Option.isNone = true)
    ∧ ((maskedCross listMean [[some (1:ℚ)], [none]]).getD 1 none = none
      ∧ (maskedCross listMean [[some (1:ℚ)], [none]]).length
          = ([[some (1:ℚ)], [none]] : List (List (Option ℚ))).length
      ∧ maskedCross listMean
            (([[some (1:ℚ)], [none]] : List (List (Option ℚ))).eraseIdx 1)
          = (maskedCross listMean [[some (1:ℚ)], [none]]).eraseIdx 1
      ∧ (maskedCross
          (fun vals => (bbLower 2 vals, (bbMiddle vals : ℝ), bbUpper 2 vals))
          [[some (1:ℚ)], [none]]).getD 1 none = none) :=
  ⟨⟨by decide, by decide⟩,
    masked_asset_spec listMean 2 [[some (1:ℚ)], [none]] 1 (by decide)
      (by decide)⟩

/-- An output term of a multi-output factor, identified by its declared
output name; the shallow stand-in for the identity of the Python output
Term objects. -/
structure OutputTerm where
  name : String

/-- Modelled from the spec: the declared output names of BollingerBands,
in their fixed declared order (lower, middle, upper). -/
def bbOutputNames : List String := ["lower", "middle", "upper"]

/-- Modelled from the spec: positional destructuring of a BollingerBands
factor yields one output term per declared name, in declared order. -/
def bbPositionalOutputs : List OutputTerm := bbOutputNames.map OutputTerm.mk

/-- Modelled from the spec: attribute access finds the output term with
the requested name among the factor outputs. -/
def bbAttrOutput (n : String) : Option OutputTerm :=
  bbPositionalOutputs.find? (fun t => t.name == n)

/-- C7: positional destructuring and attribute access agree in the fixed
declared order: the three positionally destructured outputs are exactly
the objects reached as the lower, middle and upper attributes, in that
order. -/
theorem bollinger_output_ordering :
    bbPositionalOutputs.length = 3
    ∧ bbAttrOutput "lower" = some (bbPositionalOutputs.getD 0 ⟨""⟩)
    ∧ bbAttrOutput "middle" = some (bbPositionalOutputs.getD 1 ⟨""⟩)
    ∧ bbAttrOutput "upper" = some (bbPositionalOutputs.getD 2 ⟨""⟩) :=
  ⟨rfl, rfl, rfl, rfl⟩

/-- The most recent n rows of a window column (ordered oldest first). -/
def lastN {α : Type} (n : ℕ) (xs : List α) : List α := xs.drop (xs.length - n)

/-- Modelled from the spec: tenkan_sen = (max of highs over the last n1
rows + min of lows over the last n1 rows) / 2 (the IchimokuKinkoHyo
kernel is missing from the fragment). -/
def tenkanSen (n1 : ℕ) (highs lows : List ℚ) : ℚ :=
  (listMax (lastN n1 highs) + listMin (lastN n1 lows)) / 2

/-- Modelled from the spec: kijun_sen, the same over the last n2 rows. -/
def kijunSen (n2 : ℕ) (highs lows : List ℚ) : ℚ :=
  (listMax (lastN n2 highs) + listMin (lastN n2 lows)) / 2

/-- Modelled from the spec: senkou_span_a = (tenkan_sen + kijun_sen) / 2. -/
def senkouSpanA (n1 n2 : ℕ) (highs lows : List ℚ) : ℚ :=
  (tenkanSen n1 highs lows + kijunSen n2 highs lows) / 2

/-- Modelled from the spec: senkou_span_b = (max of highs over the full
window + min of lows over the full window) / 2. -/
def senkouSpanB (highs lows : List ℚ) : ℚ :=
  (listMax highs + listMin lows) / 2

/-- Modelled from the spec: chikou_span is the close n3 rows before the
end of the window, i.e. at 0-based index length - n3; the index
convention is pinned by IchimokuKinkoHyoTestCase (window 52, n3 = 26,
closes row d of asset a holding d + a + 1, expected chikou a + 27, the
close at row index 26 = 52 - 26). -/
def chikouSpan (n3 : ℕ) (closes : List ℚ) : ℚ :=
  closes.getD (closes.length - n3) 0

theorem getD_length_sub_eq_reverse (xs : List ℚ) (n : ℕ) (h1 : 1 ≤ n)
    (h2 : n ≤ xs.length) :
    xs.getD (xs.length - n) 0 = xs.reverse.getD (n - 1) 0 := by
  have ha : xs.length - n < xs.length := by omega
  have hb : n - 1 < xs.reverse.length := by
    rw [List.length_reverse]
    omega
  rw [List.getD_eq_getElem xs 0 ha, List.getD_eq_getElem xs.reverse 0 hb,
    List.getElem_reverse]
  congr 1
  omega

theorem lastN_eq_reverse_take {α : Type} (n : ℕ) (xs : List α) :
    lastN n xs = (xs.reverse.take n).reverse := by
  rw [lastN, List.take_reverse, List.reverse_reverse]

/-- C3: for valid window and sub-window lengths, the Ichimoku kernel
writes tenkan_sen and kijun_sen as (max high + min low) / 2 over the most
recent n1 and n2 rows respectively, senkou_span_a as the midpoint of the
two, senkou_span_b over the full window, and chikou_span as the close n3
rows before the end of the window (the n3-th most recent close). -/
theorem ichimoku_compute_spec (W n1 n2 n3 : ℕ) (highs lows closes : List ℚ)
    (h1l : 1 ≤ n1) (h1 : n1 ≤ W) (h2l : 1 ≤ n2) (h2 : n2 ≤ W)
    (h3l : 1 ≤ n3) (h3 : n3 ≤ W)
    (hh : highs.length = W) (hl : lows.length = W) (hc : closes.length = W) :
    tenkanSen n1 highs lows
      = (listMax ((highs.reverse.take n1).reverse)
          + listMin ((lows.reverse.take n1).reverse)) / 2
    ∧ kijunSen n2 highs lows
      = (listMax ((highs.reverse.take n2).reverse)
          + listMin ((lows.reverse.take n2).reverse)) / 2
    ∧ senkouSpanA n1 n2 highs lows
      = (tenkanSen n1 highs lows + kijunSen n2 highs lows) / 2
    ∧ senkouSpanB highs lows = (listMax highs + listMin lows) / 2
    ∧ chikouSpan n3 closes = closes.reverse.getD (n3 - 1) 0 := by
  refine ⟨?_, ?_, rfl, rfl, ?_⟩
  · rw [tenkanSen, lastN_eq_reverse_take n1 highs,
      lastN_eq_reverse_take n1 lows]
  · rw [kijunSen, lastN_eq_reverse_take n2 highs,
      lastN_eq_reverse_take n2 lows]
  · rw [chikouSpan, hc, ← hc, getD_length_sub_eq_reverse closes n3 h3l (by omega)]

/-- Witness for the C3 theorem at W = 2, n1 = 1, n2 = 2, n3 = 2,
highs = [5, 4], lows = [1, 2], closes = [3, 6]. -/
theorem ichimoku_compute_spec_witness :
    (1 ≤ 1 ∧ 1 ≤ 2 ∧ 1 ≤ 2 ∧ 2 ≤ 2 ∧ 1 ≤ 2 ∧ 2 ≤ 2
      ∧ ([(5:ℚ), 4]).length = 2 ∧ ([(1:ℚ), 2]).length = 2
      ∧ ([(3:ℚ), 6]).length = 2)
    ∧ (tenkanSen 1 [(5:ℚ), 4] [(1:ℚ), 2]
        = (listMax (([(5:ℚ), 4].reverse.take 1).reverse)
            + listMin (([(1:ℚ), 2].reverse.take 1).reverse)) / 2
      ∧ kijunSen 2 [(5:ℚ), 4] [(1:ℚ), 2]
        = (listMax (([(5:ℚ), 4].reverse.take 2).reverse)
            + listMin (([(1:ℚ), 2].reverse.take 2).reverse)) / 2
      ∧ senkouSpanA 1 2 [(5:ℚ), 4] [(1:ℚ), 2]
        = (tenkanSen 1 [(5:ℚ), 4] [(1:ℚ), 2]
            + kijunSen 2 [(5:ℚ), 4] [(1:ℚ), 2]) / 2
      ∧ senkouSpanB [(5:ℚ), 4] [(1:ℚ), 2]
        = (listMax [(5:ℚ), 4] + listMin [(1:ℚ), 2]) / 2
      ∧ chikouSpan 2 [(3:ℚ), 6] = [(3:ℚ), 6].reverse.getD (2 - 1) 0) :=
  ⟨⟨by decide, by decide, by decide, by decide, by decide, by decide,
      rfl, rfl, rfl⟩,
    ichimoku_compute_spec 2 1 2 2 [(5:ℚ), 4] [(1:ℚ), 2] [(3:ℚ), 6]
      (by decide) (by decide) (by decide) (by decide) (by decide) (by decide)
      rfl rfl rfl⟩

/-- The validation error message: name must be <= the window_length,
followed by the offending value and the window length. -/
def ichimokuLengthError (name : String) (v w : ℕ) : String :=
  name ++ " must be <= the window_length: " ++ toString v ++ " > "
    ++ toString w

/-- The parameters of a successfully constructed IchimokuKinkoHyo. -/
structure IchimokuParams where
  window_length : ℕ
  tenkan_sen_length : ℕ
  kijun_sen_length : ℕ
  chikou_span_length : ℕ

/-- Modelled from the spec: construction validates each sub-window length
against the window length, failing with the formatted validation error on
the first violation and producing a fully constructed instance
otherwise. -/
def mkIchimokuKinkoHyo (w t k c : ℕ) : Except String IchimokuParams :=
  if t > w then Except.error (ichimokuLengthError "tenkan_sen_length" t w)
  else if k > w then Except.error (ichimokuLengthError "kijun_sen_length" k w)
  else if c > w then
    Except.error (ichimokuLengthError "chikou_span_length" c w)
  else Except.ok ⟨w, t, k, c⟩

/-- C4: constructing IchimokuKinkoHyo with exactly one sub-length v
exceeding the window length W fails with the validation error naming the
offending parameter and both values; construction with every sub-length
at most W succeeds with no partially constructed instance; and at the
concrete instance of the test, the message is the exact string
tenkan_sen_length must be <= the window_length: 53 > 52. -/
theorem ichimoku_validation_spec (w t k c : ℕ) :
    (t > w → k ≤ w → c ≤ w →
      mkIchimokuKinkoHyo w t k c
        = Except.error (ichimokuLengthError "tenkan_sen_length" t w))
    ∧ (k > w → t ≤ w → c ≤ w →
      mkIchimokuKinkoHyo w t k c
        = Except.error (ichimokuLengthError "kijun_sen_length" k w))
    ∧ (c > w → t ≤ w → k ≤ w →
      mkIchimokuKinkoHyo w t k c
        = Except.error (ichimokuLengthError "chikou_span_length" c w))
    ∧ (t ≤ w → k ≤ w → c ≤ w →
      mkIchimokuKinkoHyo w t k c = Except.ok ⟨w, t, k, c⟩)
    ∧ mkIchimokuKinkoHyo 52 53 26 26
        = Except.error "tenkan_sen_length must be <= the window_length: 53 > 52" := by
  refine ⟨?_, ?_, ?_, ?_, ?_⟩
  · intro h1 h2 h3
    rw [mkIchimokuKinkoHyo, if_pos h1]
  · intro h1 h2 h3
    rw [mkIchimokuKinkoHyo, if_neg (by omega), if_pos h1]
  · intro h1 h2 h3
    rw [mkIchimokuKinkoHyo, if_neg (by omega), if_neg (by omega), if_pos h1]
  · intro h1 h2 h3
    rw [mkIchimokuKinkoHyo, if_neg (by omega), if_neg (by omega),
      if_neg (by omega)]
  · rfl

/-- Witness for the C4 theorem at the instance of
IchimokuKinkoHyoTestCase.test_input_validation: window 52, tenkan 53
(the offending parameter), kijun 26, chikou 26. -/
theorem ichimoku_validation_spec_witness :
    (53 > 52 ∧ 26 ≤ 52 ∧ 26 ≤ 52)
    ∧ mkIchimokuKinkoHyo 52 53 26 26
        = Except.error (ichimokuLengthError "tenkan_sen_length" 53 52) :=
  ⟨⟨by decide, by decide, by decide⟩,
    (ichimoku_validation_spec 52 53 26 26).1 (by decide) (by decide)
      (by decide)⟩

/-- Modelled from the spec: the FastStochasticOscillator kernel (missing
from the fragment) writes, per asset,
percent K = 100 * (last close - window minimum low)
/ (window maximum high - window minimum low), unclamped. -/
def fastK (closes lows highs : List ℚ) : ℚ :=
  100 * (closes.getLastD 0 - listMin lows) / (listMax highs - listMin lows)

theorem listMin_replicate (n : ℕ) (x : ℚ) :
    listMin (List.replicate (n + 1) x) = x := by
  induction n with
  | zero => simp [List.replicate, listMin]
  | succ n ih =>
    rw [List.replicate_succ] at ih ⊢
    rw [List.replicate_succ]
    simp [listMin, ih]

theorem listMax_replicate (n : ℕ) (x : ℚ) :
    listMax (List.replicate (n + 1) x) = x := by
  induction n with
  | zero => simp [List.replicate, listMax]
  | succ n ih =>
    rw [List.replicate_succ] at ih ⊢
    rw [List.replicate_succ]
    simp [listMax, ih]

theorem getLastD_replicate (n : ℕ) (x d : ℚ) :
    (List.replicate (n + 1) x).getLastD d = x := by
  induction n generalizing d with
  | zero => rfl
  | succ n ih =>
    rw [List.replicate_succ, List.getLastD_cons]
    exact ih x

/-- C5: the Fast Stochastic Oscillator writes, per asset, percent K =
100 * (last close - minimum low) / (maximum high - minimum low) over the
window; in particular constant high = 3, low = 2, close = 4 over a
50-row window gives 200, so the output is not clamped to [0, 100]. -/
theorem fast_stochastic_spec :
    (∀ closes lows highs : List ℚ,
      fastK closes lows highs
        = 100 * (closes.getLastD 0 - listMin lows)
            / (listMax highs - listMin lows))
    ∧ fastK (List.replicate 50 (4:ℚ)) (List.replicate 50 2)
        (List.replicate 50 3) = 200 := by
  refine ⟨fun _ _ _ => rfl, ?_⟩
  have h4 : (List.replicate 50 (4:ℚ)).getLastD 0 = 4 := by
    simpa using getLastD_replicate 49 4 0
  have h2 : listMin (List.replicate 50 (2:ℚ)) = 2 := by
    simpa using listMin_replicate 49 2
  have h3 : listMax (List.replicate 50 (3:ℚ)) = 3 := by
    simpa using listMax_replicate 49 3
  rw [fastK, h4, h2, h3]
  norm_num

/-- Modelled from the spec: the TrueRange kernel (missing from the
fragment) writes, per asset, using the two most recent rows,
max(current high - current low, |current high - previous close|,
|current low - previous close|). -/
def trueRange (highs lows closes : List ℚ) : ℚ :=
  max (highs.getLastD 0 - lows.getLastD 0)
    (max |highs.getLastD 0 - closes.getD (closes.length - 2) 0|
      |lows.getLastD 0 - closes.getD (closes.length - 2) 0|)

theorem getLastD_cons_of_ne_nil (a d : ℚ) (l : List ℚ) (h : l ≠ []) :
    (a :: l).getLastD d = l.getLastD d := by
  cases l with
  | nil => exact absurd rfl h
  | cons y t =>
    rw [List.getLastD_eq_getLast?, List.getLastD_eq_getLast?,
      List.getLast?_cons_cons]

/-- C9: True Range uses only the two most recent rows: it equals
max(current high - current low, |current high - previous close|,
|current low - previous close|), is unchanged by prepending an older row
to each window, and on highs constant 3, lows constant 2, closes
constant 1 over a 2-row window it equals 2. -/
theorem true_range_spec (highs lows closes : List ℚ) (a b c : ℚ)
    (hh : 2 ≤ highs.length) (hl : 2 ≤ lows.length)
    (hc : 2 ≤ closes.length) :
    trueRange highs lows closes
      = max (highs.getLastD 0 - lows.getLastD 0)
        (max |highs.getLastD 0 - closes.getD (closes.length - 2) 0|
          |lows.getLastD 0 - closes.getD (closes.length - 2) 0|)
    ∧ trueRange (a :: highs) (b :: lows) (c :: closes)
        = trueRange highs lows closes
    ∧ trueRange [(3:ℚ), 3] [(2:ℚ), 2] [(1:ℚ), 1] = 2 := by
  refine ⟨rfl, ?_, ?_⟩
  · have hhn : highs ≠ [] := by
      intro h
      rw [h] at hh
      simp at hh
    have hln : lows ≠ [] := by
      intro h
      rw [h] at hl
      simp at hl
    have hidx : (c :: closes).length - 2 = (closes.length - 2) + 1 := by
      simp only [List.length_cons]
      omega
    rw [trueRange, trueRange, getLastD_cons_of_ne_nil a 0 highs hhn,
      getLastD_cons_of_ne_nil b 0 lows hln, hidx, List.getD_cons_succ]
  · have e1 : ([(3:ℚ), 3]).getLastD 0 = 3 := rfl
    have e2 : ([(2:ℚ), 2]).getLastD 0 = 2 := rfl
    have e3 : ([(1:ℚ), 1]).getD (([(1:ℚ), 1]).length - 2) 0 = 1 := rfl
    rw [trueRange, e1, e2, e3]
    rw [show |(3:ℚ) - 1| = 2 by norm_num, show |(2:ℚ) - 1| = 1 by norm_num]
    norm_num

/-- Witness for the C9 theorem with highs = [3, 3], lows = [2, 2],
closes = [1, 1] and prepended older row 9, 9, 9. -/
theorem true_range_spec_witness :
    (2 ≤ ([(3:ℚ), 3]).length ∧ 2 ≤ ([(2:ℚ), 2]).length
      ∧ 2 ≤ ([(1:ℚ), 1]).length)
    ∧ (trueRange [(3:ℚ), 3] [(2:ℚ), 2] [(1:ℚ), 1]
        = max (([(3:ℚ), 3]).getLastD 0 - ([(2:ℚ), 2]).getLastD 0)
          (max |([(3:ℚ), 3]).getLastD 0
              - ([(1:ℚ), 1]).getD (([(1:ℚ), 1]).length - 2) 0|
            |([(2:ℚ), 2]).getLastD 0
              - ([(1:ℚ), 1]).getD (([(1:ℚ), 1]).length - 2) 0|)
      ∧ trueRange ((9:ℚ) :: [(3:ℚ), 3]) ((9:ℚ) :: [(2:ℚ), 2])
            ((9:ℚ) :: [(1:ℚ), 1])
          = trueRange [(3:ℚ), 3] [(2:ℚ), 2] [(1:ℚ), 1]
      ∧ trueRange [(3:ℚ), 3] [(2:ℚ), 2] [(1:ℚ), 1] = 2) :=
  ⟨⟨by decide, by decide, by decide⟩,
    true_range_spec [(3:ℚ), 3] [(2:ℚ), 2] [(1:ℚ), 1] 9 9 9 (by decide)
      (by decide) (by decide)⟩

/-- A wall-clock time of day, as datetime.time: hour, minute, second and
microsecond fields. -/
structure TimeOfDay where
  hour : ℕ
  minute : ℕ
  second : ℕ
  microsecond : ℕ

/-- Translation of _time_to_micros (zipline/utils/pandas_utils.py):
seconds = hour * 60 * 60 + minute * 60 + second;
result = 1000000 * seconds + microsecond. -/
def time_to_micros (t : TimeOfDay) : ℕ :=
  1000000 * (t.hour * 60 * 60 + t.minute * 60 + t.second) + t.microsecond

/-- Translation of _opmap: the dict zipping
product((True, False), repeat=3), ordered lexicographically, with
product((le, lt), (le, lt), (and, or)), giving for each triple
(include_start, include_end, start_micros <= end_micros) the left
comparison, the right comparison and the joining boolean operation. -/
def opmap : Bool → Bool → Bool →
    (ℕ → ℕ → Bool) × (ℕ → ℕ → Bool) × (Bool → Bool → Bool)
  | true, true, true =>
    (fun a b => decide (a ≤ b), fun a b => decide (a ≤ b), Bool.and)
  | true, true, false =>
    (fun a b => decide (a ≤ b), fun a b => decide (a ≤ b), Bool.or)
  | true, false, true =>
    (fun a b => decide (a ≤ b), fun a b => decide (a < b), Bool.and)
  | true, false, false =>
    (fun a b => decide (a ≤ b), fun a b => decide (a < b), Bool.or)
  | false, true, true =>
    (fun a b => decide (a < b), fun a b => decide (a ≤ b), Bool.and)
  | false, true, false =>
    (fun a b => decide (a < b), fun a b => decide (a ≤ b), Bool.or)
  | false, false, true =>
    (fun a b => decide (a < b), fun a b => decide (a < b), Bool.and)
  | false, false, false =>
    (fun a b => decide (a < b), fun a b => decide (a < b), Bool.or)

/-- Translation of mask_between_time: the DatetimeIndex is supplied
through its per-entry time-of-day microseconds (dts._get_time_micros());
the mask joins left_op(start_micros, t) and right_op(t, end_micros) with
the operations selected by _opmap on (include_start, include_end,
start_micros <= end_micros). -/
def mask_between_time (timeMicros : List ℕ) (start endT : TimeOfDay)
    (include_start include_end : Bool) : List Bool :=
  let start_micros := time_to_micros start
  let end_micros := time_to_micros endT
  let ops := opmap include_start include_end
    (decide (start_micros ≤ end_micros))
  timeMicros.map (fun t => ops.2.2 (ops.1 start_micros t) (ops.2.1 t end_micros))

/-- C10: an entry is selected by mask_between_time exactly when its
time-of-day microseconds satisfy the start bound (inclusive iff
include_start) AND the end bound (inclusive iff include_end) when
start_micros <= end_micros, and satisfies the start bound OR the end
bound (an interval wrapping midnight) when start_micros > end_micros;
the mask has one entry per input entry. -/
theorem mask_between_time_spec (timeMicros : List ℕ) (s e : TimeOfDay)
    (is ie : Bool) (i : ℕ) (hi : i < timeMicros.length) :
    ((mask_between_time timeMicros s e is ie).getD i false = true
      ↔ (if time_to_micros s ≤ time_to_micros e then
          (if is then time_to_micros s ≤ timeMicros.getD i 0
            else time_to_micros s < timeMicros.getD i 0)
          ∧ (if ie then timeMicros.getD i 0 ≤ time_to_micros e
            else timeMicros.getD i 0 < time_to_micros e)
        else
          (if is then time_to_micros s ≤ timeMicros.getD i 0
            else time_to_micros s < timeMicros.getD i 0)
          ∨ (if ie then timeMicros.getD i 0 ≤ time_to_micros e
            else timeMicros.getD i 0 < time_to_micros e)))
    ∧ (mask_between_time timeMicros s e is ie).length = timeMicros.length := by
  constructor
  · cases is <;> cases ie <;>
      by_cases hse : time_to_micros s ≤ time_to_micros e <;>
        simp [mask_between_time, opmap, hse, Bool.and_eq_true,
          Bool.or_eq_true, decide_eq_true_eq, List.getD_eq_getElem?_getD,
          List.getElem?_map, List.getElem?_eq_getElem hi]
  · simp [mask_between_time]

/-- Witness for the C10 theorem: entries [5, 100], start 10 microseconds
after midnight, end 50 microseconds after midnight, include_start true,
include_end false, entry 0. -/
theorem mask_between_time_spec_witness :
    (0 < ([5, 100] : List ℕ).length)
    ∧ (((mask_between_time [5, 100] ⟨0, 0, 0, 10⟩ ⟨0, 0, 0, 50⟩ true
          false).getD 0 false = true
        ↔ (if time_to_micros ⟨0, 0, 0, 10⟩ ≤ time_to_micros ⟨0, 0, 0, 50⟩ then
            (if true then
                time_to_micros ⟨0, 0, 0, 10⟩ ≤ ([5, 100] : List ℕ).getD 0 0
              else time_to_micros ⟨0, 0, 0, 10⟩ < ([5, 100] : List ℕ).getD 0 0)
            ∧ (if false then
                ([5, 100] : List ℕ).getD 0 0 ≤ time_to_micros ⟨0, 0, 0, 50⟩
              else ([5, 100] : List ℕ).getD 0 0 < time_to_micros ⟨0, 0, 0, 50⟩)
          else
            (if true then
                time_to_micros ⟨0, 0, 0, 10⟩ ≤ ([5, 100] : List ℕ).getD 0 0
              else time_to_micros ⟨0, 0, 0, 10⟩ < ([5, 100] : List ℕ).getD 0 0)
            ∨ (if false then
                ([5, 100] : List ℕ).getD 0 0 ≤ time_to_micros ⟨0, 0, 0, 50⟩
              else ([5, 100] : List ℕ).getD 0 0 < time_to_micros ⟨0, 0, 0, 50⟩)))
      ∧ (mask_between_time [5, 100] ⟨0, 0, 0, 10⟩ ⟨0, 0, 0, 50⟩ true
          false).length = ([5, 100] : List ℕ).length) :=
  ⟨by decide,
    mask_between_time_spec [5, 100] ⟨0, 0, 0, 10⟩ ⟨0, 0, 0, 50⟩ true false 0
      (by decide)⟩
